import Mathlib

/-!
Verification of the Pilates Flow Studio workout engine.

This file gives a shallow embedding of the exercise catalog and the core
routines of `pilates_logic.py` (`generate_workout`, `smart_swap`,
`workout_to_json` / `json_to_workout`) and of the analysis routines of
`app.py` (`analyze_workout_balance` and the streak computation inside
`calculate_progress_stats`), and proves the specified properties about them.

Modelling conventions:
* Python `float` durations and ratios are modelled as `ℚ`.
* Python `random.shuffle` is modelled by an explicit `shuffle` function
  argument, constrained in theorems to produce permutations.
* Python `random.choice` is modelled by an explicit `choice` function
  argument, constrained in theorems to pick an element of its input.
* Python list indexing (which accepts negative indices and raises
  `IndexError` out of range) is modelled by `pyGetElem`; `smart_swap`
  returns `Except String (Option Entry)` where `.error` models the raised
  `IndexError` and `.ok none` models Python's `None` result.
* Calendar dates in the streak computation are modelled as day numbers
  (`Int`), with subtraction giving the `.days` difference.
-/

/-- The catalog record: a direct embedding of the Python `Exercise` dataclass. -/
structure Exercise where
  slug : String
  name : String
  apparatus : String
  category : String
  phase : String
  energy : Int
  default_springs : String
  duration_min : ℚ
  cues : List String
  themes : List String
  image : String
deriving DecidableEq

/-- A workout plan entry: the dict produced by `Exercise.to_dict()` with the
added `phase_label` key. -/
structure Entry where
  slug : String
  name : String
  apparatus : String
  category : String
  phase : String
  energy : Int
  default_springs : String
  duration_min : ℚ
  cues : List String
  themes : List String
  image : String
  phase_label : String
deriving DecidableEq

/-- `entry = ex.to_dict(); entry["phase_label"] = label`. -/
def toEntry (e : Exercise) (label : String) : Entry :=
  { slug := e.slug, name := e.name, apparatus := e.apparatus,
    category := e.category, phase := e.phase, energy := e.energy,
    default_springs := e.default_springs, duration_min := e.duration_min,
    cues := e.cues, themes := e.themes, image := e.image,
    phase_label := label }

/-- Python `str.capitalize()`: first character upper-cased, the rest lower-cased. -/
def pyCapitalize (s : String) : String :=
  match s.data with
  | [] => ""
  | c :: cs => String.mk (c.toUpper :: cs.map Char.toLower)

/-- Python `str.lower()`. -/
def pyLower (s : String) : String :=
  String.mk (s.data.map Char.toLower)

/-- The static exercise library `EXERCISE_DB` of `pilates_logic.py`. -/
def EXERCISE_DB : List Exercise := [
  -- REFORMER, warmup
  ⟨"ref_footwork_parallel", "Footwork – Parallel", "Reformer", "Footwork",
   "warmup", 1, "3 Red + 1 Blue", 3.0,
   ["Heels together, toes apart", "Press evenly through all 10 toes",
    "Keep pelvis neutral – no tucking"],
   ["Core", "Lower Body", "Full Body"], "footwork_parallel.png"⟩,
  ⟨"ref_footwork_v", "Footwork – V Position", "Reformer", "Footwork",
   "warmup", 1, "3 Red + 1 Blue", 2.0,
   ["Small V with heels touching", "Wrap outer hips",
    "Lengthen through the crown of the head"],
   ["Core", "Lower Body"], "footwork_v.png"⟩,
  ⟨"ref_footwork_wide", "Footwork – Wide Second", "Reformer", "Footwork",
   "warmup", 2, "3 Red + 1 Blue", 2.0,
   ["Wider than hip-width on the bar", "Track knees over second toe",
    "Feel the inner thigh connection"],
   ["Lower Body", "Flexibility"], "footwork_wide.png"⟩,
  ⟨"ref_footwork_toes", "Footwork – On Toes", "Reformer", "Footwork",
   "warmup", 2, "3 Red + 1 Blue", 2.0,
   ["Lift heels high", "Maintain ankle stability",
    "Press through the ball of the foot"],
   ["Lower Body", "Balance"], "footwork_toes.png"⟩,
  ⟨"ref_hundred_prep", "Hundred Prep", "Reformer", "Supine Abdominals",
   "warmup", 2, "1 Red", 2.0,
   ["Chin to chest, eyes on belly", "Pump arms with control",
    "Breathe: inhale 5 counts, exhale 5 counts"],
   ["Core"], "hundred_prep.png"⟩,
  ⟨"ref_warmup_bridging", "Bridging", "Reformer", "Supine Hip Work",
   "warmup", 1, "2 Red", 3.0,
   ["Articulate spine one vertebra at a time", "Press heels into bar",
    "Lengthen knees over toes at the top"],
   ["Core", "Lower Body", "Flexibility"], "bridging.png"⟩,
  ⟨"ref_ribcage_arms", "Ribcage Arms", "Reformer", "Arm Work",
   "warmup", 1, "1 Blue", 2.0,
   ["Keep ribs anchored to the mat", "Arms float to ceiling then overhead",
    "Don\x27t let the back arch"],
   ["Upper Body", "Core", "Flexibility"], "ribcage_arms.png"⟩,
  -- REFORMER, foundation
  ⟨"ref_short_spine", "Short Spine Massage", "Reformer", "Supine Abdominals",
   "foundation", 3, "2 Red", 4.0,
   ["Use the straps to guide legs overhead", "Roll down one bone at a time",
    "Keep the carriage still as you fold"],
   ["Core", "Flexibility", "Full Body"], "short_spine.png"⟩,
  ⟨"ref_coordination", "Coordination", "Reformer", "Supine Abdominals",
   "foundation", 3, "1 Red + 1 Blue", 3.0,
   ["Curl up, extend arms and legs simultaneously",
    "Open-close legs while holding the curl", "Everything returns together"],
   ["Core", "Full Body"], "coordination.png"⟩,
  ⟨"ref_pulling_straps", "Pulling Straps", "Reformer", "Prone Back Extension",
   "foundation", 3, "1 Red", 3.0,
   ["Lie prone on the box", "Pull straps alongside the body",
    "Lift chest with back muscles, not arms"],
   ["Upper Body", "Core"], "pulling_straps.png"⟩,
  ⟨"ref_backstroke", "Backstroke", "Reformer", "Supine Abdominals",
   "foundation", 3, "1 Red", 3.0,
   ["Start in a ball position", "Reach arms and legs to ceiling then open",
    "Circle everything back to start"],
   ["Core", "Full Body"], "backstroke.png"⟩,
  ⟨"ref_long_stretch", "Long Stretch", "Reformer", "Plank / Full Body",
   "foundation", 3, "1 Red + 1 Blue", 3.0,
   ["Plank position, hands on the bar", "Push out through heels",
    "Pull carriage home with abdominals"],
   ["Core", "Upper Body", "Full Body"], "long_stretch.png"⟩,
  ⟨"ref_elephant", "Elephant", "Reformer", "Standing Hip Work",
   "foundation", 2, "2 Red + 1 Blue", 3.0,
   ["Round the spine, head between arms", "Push carriage back with legs",
    "Pull the carriage home with deep abs"],
   ["Core", "Flexibility", "Lower Body"], "elephant.png"⟩,
  ⟨"ref_knee_stretches_round", "Knee Stretches – Round Back", "Reformer", "Kneeling Core",
   "foundation", 3, "2 Red", 2.5,
   ["Kneel on carriage, hands on bar", "Round the spine like an angry cat",
    "Push and pull with control"],
   ["Core", "Full Body"], "knee_stretches_round.png"⟩,
  ⟨"ref_scooter", "Scooter", "Reformer", "Standing Hip Work",
   "foundation", 3, "1 Red + 1 Blue", 3.0,
   ["One foot on platform, one on carriage", "Press standing leg back",
    "Keep hips level and square"],
   ["Lower Body", "Balance", "Core"], "scooter.png"⟩,
  ⟨"ref_mermaid", "Mermaid Stretch", "Reformer", "Lateral Flexion",
   "foundation", 2, "1 Red", 3.0,
   ["Sit sideways, hand on bar", "Stretch over into a side bend",
    "Breathe into the top ribs"],
   ["Flexibility", "Core"], "mermaid.png"⟩,
  ⟨"ref_arm_circles_straps", "Arm Circles in Straps", "Reformer", "Arm Work",
   "foundation", 2, "1 Blue", 3.0,
   ["Lie supine, arms in straps", "Circle arms down and around",
    "Keep shoulders stable on the mat"],
   ["Upper Body", "Core"], "arm_circles_straps.png"⟩,
  -- REFORMER, peak
  ⟨"ref_snake_twist", "Snake / Twist", "Reformer", "Plank / Full Body",
   "peak", 5, "1 Red + 1 Blue", 4.0,
   ["Side plank on the reformer", "Push out and twist under",
    "Control the return – no momentum"],
   ["Core", "Upper Body", "Full Body"], "snake_twist.png"⟩,
  ⟨"ref_control_front", "Control Front", "Reformer", "Plank / Full Body",
   "peak", 5, "1 Red", 3.5,
   ["Stand on bar, hands on platform", "Push carriage out to plank",
    "Pull back with deep abdominal connection"],
   ["Core", "Upper Body", "Full Body"], "control_front.png"⟩,
  ⟨"ref_long_back_stretch", "Long Back Stretch", "Reformer", "Arm Work",
   "peak", 4, "1 Red + 1 Blue", 3.0,
   ["Sit on carriage facing foot bar", "Hands on bar, lift and push out",
    "Tricep dip meets spine articulation"],
   ["Upper Body", "Core"], "long_back_stretch.png"⟩,
  ⟨"ref_star", "Star", "Reformer", "Lateral Flexion",
   "peak", 5, "1 Red", 3.0,
   ["Side-lying on the box", "Top arm and leg reach long",
    "Balance and control are everything"],
   ["Core", "Balance", "Full Body"], "star.png"⟩,
  ⟨"ref_arabesque", "Arabesque on Reformer", "Reformer", "Standing Hip Work",
   "peak", 4, "1 Red + 1 Blue", 3.0,
   ["Stand on carriage, one hand on bar", "Extend free leg behind",
    "Hinge from the hip with length"],
   ["Lower Body", "Balance", "Core"], "arabesque.png"⟩,
  ⟨"ref_tendon_stretch", "Tendon Stretch", "Reformer", "Plank / Full Body",
   "peak", 5, "2 Red", 3.0,
   ["Stand on carriage, hands on bar", "Round down lifting hips high",
    "Push carriage back with feet, pull with abs"],
   ["Core", "Full Body"], "tendon_stretch.png"⟩,
  ⟨"ref_semi_circle", "Semi-Circle", "Reformer", "Supine Hip Work",
   "peak", 4, "1 Red + 1 Blue", 4.0,
   ["Lie with shoulders on mat, feet on bar", "Articulate through bridge",
    "Circle the hips down-out-up-in"],
   ["Core", "Flexibility", "Lower Body"], "semi_circle.png"⟩,
  -- REFORMER, cooldown
  ⟨"ref_running", "Running on Reformer", "Reformer", "Footwork",
   "cooldown", 1, "3 Red", 3.0,
   ["Alternate pressing heels under the bar", "Like jogging in place",
    "Find a smooth, even rhythm"],
   ["Lower Body", "Flexibility"], "running.png"⟩,
  ⟨"ref_pelvic_lift", "Pelvic Lift / Calf Raises", "Reformer", "Footwork",
   "cooldown", 1, "3 Red", 2.0,
   ["Both heels under the bar", "Press up and lower with control",
    "Stretch the calves and Achilles"],
   ["Lower Body", "Flexibility"], "pelvic_lift.png"⟩,
  ⟨"ref_chest_expansion_kneel", "Chest Expansion – Kneeling", "Reformer", "Arm Work",
   "cooldown", 2, "1 Red", 2.5,
   ["Kneel facing the straps", "Pull arms back and hold",
    "Open across the collarbones"],
   ["Upper Body", "Flexibility"], "chest_expansion_kneel.png"⟩,
  ⟨"ref_hip_flexor_stretch", "Hip Flexor Stretch on Carriage", "Reformer", "Stretch",
   "cooldown", 1, "1 Blue", 3.0,
   ["One knee on carriage, other foot on platform", "Let the carriage glide back",
    "Sink into the front of the hip"],
   ["Flexibility", "Lower Body"], "hip_flexor_stretch.png"⟩,
  ⟨"ref_mermaid_cooldown", "Mermaid Cooldown", "Reformer", "Lateral Flexion",
   "cooldown", 1, "1 Blue", 2.5,
   ["Gentle side stretch", "Breathe deeply into the ribs",
    "Let gravity do the work"],
   ["Flexibility"], "mermaid_cooldown.png"⟩,
  -- MAT, warmup
  ⟨"mat_breathing", "Pilates Breathing", "Mat", "Breathing",
   "warmup", 1, "N/A", 2.0,
   ["Lateral thoracic breathing", "Expand ribs sideways on inhale",
    "Knit ribs together on exhale"],
   ["Core", "Flexibility"], "mat_breathing.png"⟩,
  ⟨"mat_pelvic_curl", "Pelvic Curl", "Mat", "Supine Hip Work",
   "warmup", 1, "N/A", 3.0,
   ["Imprint, then roll up bone by bone", "Squeeze glutes at the top",
    "Roll down like laying a pearl necklace"],
   ["Core", "Lower Body", "Flexibility"], "pelvic_curl.png"⟩,
  ⟨"mat_spine_twist_supine", "Supine Spine Twist", "Mat", "Supine Abdominals",
   "warmup", 1, "N/A", 2.5,
   ["Knees together, drop to one side", "Keep both shoulders on the mat",
    "Use abs to bring knees back to center"],
   ["Core", "Flexibility"], "spine_twist_supine.png"⟩,
  ⟨"mat_cat_cow", "Cat-Cow Stretch", "Mat", "Kneeling Core",
   "warmup", 1, "N/A", 2.0,
   ["Hands under shoulders, knees under hips", "Round up into cat, then arch into cow",
    "Move with your breath"],
   ["Flexibility", "Core"], "cat_cow.png"⟩,
  -- MAT, foundation
  ⟨"mat_hundred", "The Hundred", "Mat", "Supine Abdominals",
   "foundation", 3, "N/A", 3.0,
   ["Curl up, legs at tabletop or extended", "Pump arms vigorously",
    "100 counts: inhale 5, exhale 5"],
   ["Core"], "mat_hundred.png"⟩,
  ⟨"mat_roll_up", "Roll Up", "Mat", "Supine Abdominals",
   "foundation", 3, "N/A", 3.0,
   ["Arms overhead to start", "Peel up one vertebra at a time",
    "Reach past toes, then roll back down"],
   ["Core", "Flexibility"], "mat_roll_up.png"⟩,
  ⟨"mat_single_leg_circle", "Single Leg Circles", "Mat", "Supine Hip Work",
   "foundation", 2, "N/A", 3.0,
   ["One leg to ceiling, other long on mat", "Circle the leg — keep pelvis still",
    "5 each direction"],
   ["Core", "Lower Body", "Flexibility"], "single_leg_circle.png"⟩,
  ⟨"mat_single_leg_stretch", "Single Leg Stretch", "Mat", "Supine Abdominals",
   "foundation", 3, "N/A", 3.0,
   ["Curl up, one knee in", "Switch legs with control",
    "Elbows wide, gaze at navel"],
   ["Core"], "single_leg_stretch.png"⟩,
  ⟨"mat_double_leg_stretch", "Double Leg Stretch", "Mat", "Supine Abdominals",
   "foundation", 3, "N/A", 3.0,
   ["Everything reaches long", "Circle arms back and hug knees in",
    "Maintain the curl throughout"],
   ["Core", "Full Body"], "double_leg_stretch.png"⟩,
  ⟨"mat_swimming", "Swimming", "Mat", "Prone Back Extension",
   "foundation", 3, "N/A", 3.0,
   ["Lie prone, arms and legs lifted", "Flutter opposite arm/leg",
    "Keep length — don\x27t crunch the low back"],
   ["Core", "Upper Body", "Full Body"], "mat_swimming.png"⟩,
  ⟨"mat_side_kick_series", "Side Kick Series", "Mat", "Side-Lying Hip Work",
   "foundation", 2, "N/A", 4.0,
   ["Lie on side, legs slightly forward", "Front/back kicks with control",
    "Up/down lifts, circles"],
   ["Lower Body", "Core", "Balance"], "side_kick_series.png"⟩,
  ⟨"mat_spine_stretch", "Spine Stretch Forward", "Mat", "Seated Flexion",
   "foundation", 2, "N/A", 2.5,
   ["Sit tall, legs wide, arms forward", "Round forward from the top of the head",
    "Stack back up to sitting"],
   ["Core", "Flexibility"], "spine_stretch.png"⟩,
  -- MAT, peak
  ⟨"mat_teaser", "Teaser", "Mat", "Supine Abdominals",
   "peak", 5, "N/A", 3.0,
   ["Roll up to a V-sit", "Arms reach past toes",
    "Roll down with control — the harder part"],
   ["Core", "Full Body"], "mat_teaser.png"⟩,
  ⟨"mat_boomerang", "Boomerang", "Mat", "Supine Abdominals",
   "peak", 5, "N/A", 3.5,
   ["Roll over, switch legs, roll up to teaser",
    "Clasp hands behind back", "Lower with control"],
   ["Core", "Flexibility", "Full Body"], "mat_boomerang.png"⟩,
  ⟨"mat_control_balance", "Control Balance", "Mat", "Supine Abdominals",
   "peak", 5, "N/A", 3.0,
   ["From rollover, split legs", "One leg to ceiling, hold ankle",
    "Switch with control"],
   ["Core", "Flexibility", "Balance"], "control_balance.png"⟩,
  ⟨"mat_push_up", "Pilates Push-Up", "Mat", "Plank / Full Body",
   "peak", 4, "N/A", 3.0,
   ["Roll down to plank", "Three push-ups with elbows tight",
    "Walk hands back and roll up"],
   ["Upper Body", "Core", "Full Body"], "mat_push_up.png"⟩,
  ⟨"mat_jackknife", "Jackknife", "Mat", "Supine Abdominals",
   "peak", 5, "N/A", 3.0,
   ["Roll over then shoot legs to ceiling", "Body in one diagonal line",
    "Roll down with control"],
   ["Core", "Full Body"], "mat_jackknife.png"⟩,
  -- MAT, cooldown
  ⟨"mat_seal", "Seal", "Mat", "Seated Flexion",
   "cooldown", 1, "N/A", 2.5,
   ["Balance on sit bones, hold ankles", "Roll back and clap feet 3 times",
    "Roll up and clap 3 times — playful!"],
   ["Core", "Flexibility"], "mat_seal.png"⟩,
  ⟨"mat_child_pose", "Rest Position / Child\x27s Pose", "Mat", "Stretch",
   "cooldown", 1, "N/A", 2.0,
   ["Knees wide, toes together", "Reach arms forward and breathe",
    "Let the spine release completely"],
   ["Flexibility"], "mat_child_pose.png"⟩,
  ⟨"mat_roll_down", "Standing Roll Down", "Mat", "Standing Stretch",
   "cooldown", 1, "N/A", 2.0,
   ["Chin to chest, roll down vertebra by vertebra",
    "Hang at the bottom, breathe",
    "Rebuild the spine from the base up"],
   ["Flexibility", "Core"], "mat_roll_down.png"⟩,
  ⟨"mat_hip_circles", "Hip Circles Stretch", "Mat", "Supine Hip Work",
   "cooldown", 1, "N/A", 2.5,
   ["Hug one knee to chest", "Circle the hip gently",
    "Release and switch sides"],
   ["Flexibility", "Lower Body"], "mat_hip_circles.png"⟩,
  -- CHAIR
  ⟨"chair_footwork_seated", "Footwork – Seated", "Chair", "Footwork",
   "warmup", 2, "1 High + 1 Low", 3.0,
   ["Sit tall on the chair", "Press pedal down with control",
    "Resist on the way up"],
   ["Lower Body", "Core"], "chair_footwork_seated.png"⟩,
  ⟨"chair_pump_one_leg", "Single Leg Pump", "Chair", "Standing Hip Work",
   "foundation", 3, "1 High", 3.0,
   ["Stand facing the chair", "One foot presses pedal",
    "Square hips, don\x27t lean"],
   ["Lower Body", "Balance", "Core"], "chair_pump_one_leg.png"⟩,
  ⟨"chair_swan", "Swan on Chair", "Chair", "Prone Back Extension",
   "foundation", 3, "1 High + 1 Low", 3.5,
   ["Lie prone over the chair seat", "Hands press pedal down",
    "Lift chest using back extensors"],
   ["Upper Body", "Core"], "chair_swan.png"⟩,
  ⟨"chair_pike", "Pike / Pull-Up", "Chair", "Plank / Full Body",
   "peak", 5, "1 High", 3.0,
   ["Stand on pedal, hands on seat", "Pike up lifting hips to ceiling",
    "Control the pedal\x27s return"],
   ["Core", "Upper Body", "Full Body"], "chair_pike.png"⟩,
  ⟨"chair_side_body_twist", "Side Body Twist", "Chair", "Lateral Flexion",
   "peak", 4, "1 Low", 3.0,
   ["Sit sideways on the chair", "Press pedal while rotating",
    "Feel the oblique connection"],
   ["Core", "Flexibility"], "chair_side_body_twist.png"⟩,
  ⟨"chair_hamstring_press", "Hamstring Press Back", "Chair", "Standing Hip Work",
   "foundation", 3, "1 High", 3.0,
   ["Stand facing away from chair", "Press pedal down behind you",
    "Keep standing leg strong and tall"],
   ["Lower Body", "Balance"], "chair_hamstring_press.png"⟩,
  ⟨"chair_stretch_forward", "Forward Stretch on Chair", "Chair", "Stretch",
   "cooldown", 1, "1 Low", 2.0,
   ["Sit on the chair, feet on pedal", "Round forward pressing pedal gently",
    "Let gravity lengthen the spine"],
   ["Flexibility"], "chair_stretch_forward.png"⟩,
  -- CADILLAC / TOWER
  ⟨"cad_roll_down_bar", "Roll Down with Push-Through Bar", "Cadillac", "Supine Abdominals",
   "warmup", 2, "Top Spring", 3.0,
   ["Hold the bar, curl chin to chest", "Articulate down one bone at a time",
    "The spring assists — use it wisely"],
   ["Core", "Flexibility"], "cad_roll_down_bar.png"⟩,
  ⟨"cad_leg_springs_series", "Leg Springs Series", "Cadillac", "Supine Hip Work",
   "foundation", 3, "Leg Springs", 5.0,
   ["Supine with legs in springs", "Circles, frogs, walking",
    "Keep pelvis stable throughout"],
   ["Lower Body", "Core", "Flexibility"], "cad_leg_springs.png"⟩,
  ⟨"cad_monkey", "Monkey", "Cadillac", "Supine Hip Work",
   "foundation", 2, "Bottom Spring", 3.0,
   ["Feet on push-through bar, knees bent", "Press bar to ceiling",
    "Articulate spine up into a bridge"],
   ["Core", "Lower Body", "Flexibility"], "cad_monkey.png"⟩,
  ⟨"cad_breathing_push_thru", "Breathing with Push-Through Bar", "Cadillac", "Seated Flexion",
   "foundation", 2, "Top Spring", 3.0,
   ["Sit tall facing the bar", "Push through and round forward",
    "Stack spine to return"],
   ["Core", "Flexibility"], "cad_breathing_push_thru.png"⟩,
  ⟨"cad_cat_on_cadillac", "Cat Stretch", "Cadillac", "Kneeling Core",
   "peak", 4, "Top Spring", 3.5,
   ["Kneel facing the tower", "Hold bar overhead, round and push through",
    "Deep flexion against the spring"],
   ["Core", "Flexibility", "Full Body"], "cad_cat_stretch.png"⟩,
  ⟨"cad_tower", "Tower", "Cadillac", "Supine Hip Work",
   "peak", 4, "Leg Springs", 4.0,
   ["Feet in push-through bar", "Roll over then press legs to ceiling",
    "Articulate down one vertebra at a time"],
   ["Core", "Flexibility", "Full Body"], "cad_tower.png"⟩,
  ⟨"cad_hanging_back", "Hanging Back", "Cadillac", "Prone Back Extension",
   "peak", 5, "Top Spring", 3.0,
   ["Hold fuzzy loops from the top", "Lean back into an arch",
    "Trust the springs, open the chest"],
   ["Upper Body", "Flexibility", "Core"], "cad_hanging_back.png"⟩,
  ⟨"cad_arm_springs", "Arm Springs – Supine", "Cadillac", "Arm Work",
   "cooldown", 2, "Arm Springs", 3.0,
   ["Lie supine holding arm springs", "Press arms to hips and lift back",
    "Control the spring\x27s return"],
   ["Upper Body", "Core"], "cad_arm_springs.png"⟩]

/-- Phase proportions for the bell-curve class structure (`PHASE_RATIOS`).
The Python dict is modelled as a total function; only the four phase keys are
ever queried, other strings map to 0. -/
def PHASE_RATIOS (phase : String) : ℚ :=
  if phase = "warmup" then 0.20
  else if phase = "foundation" then 0.30
  else if phase = "peak" then 0.30
  else if phase = "cooldown" then 0.20
  else 0

def PHASE_ORDER : List String := ["warmup", "foundation", "peak", "cooldown"]

def THEMES : List String :=
  ["Core", "Flexibility", "Lower Body", "Upper Body", "Full Body", "Balance"]

def APPARATUS_OPTIONS : List String :=
  ["Reformer", "Mat", "Chair", "Cadillac", "Mixed"]

def ENERGY_LEVELS : List (String × (Int × Int)) :=
  [("Gentle (1-2)", (1, 2)), ("Moderate (2-3)", (2, 3)),
   ("Challenging (3-4)", (3, 4)), ("Intense (4-5)", (4, 5))]

/-- `ENERGY_LEVELS.get(energy_label, (1, 5))`. -/
def energyBand (energy_label : String) : Int × Int :=
  (ENERGY_LEVELS.lookup energy_label).getD (1, 5)

/-- Filter exercises by apparatus; `"Mixed"` returns everything. -/
def get_exercises_for_apparatus (apparatus : String) : List Exercise :=
  if apparatus = "Mixed" then EXERCISE_DB
  else EXERCISE_DB.filter (fun e => decide (e.apparatus = apparatus))

/-- One iteration of the theme-backfill loop of `generate_workout`: if the
running themed pool has fewer than 2 exercises in `phase`, extend it with up
to 3 exercises of that phase from `pool` that are not already in it. -/
def backfillStep (pool themed : List Exercise) (phase : String) : List Exercise :=
  if (themed.filter (fun e => decide (e.phase = phase))).length < 2 then
    themed ++ (pool.filter (fun e => decide (e.phase = phase ∧ e ∉ themed))).take 3
  else themed

/-- The theme-backfill loop over the phases, threading the themed pool. -/
def backfillPhases (pool : List Exercise) :
    List String → List Exercise → List Exercise
  | [], themed => themed
  | phase :: rest, themed => backfillPhases pool rest (backfillStep pool themed phase)

/-- The theme-narrowing step of `generate_workout`: filter the pool by theme,
backfill each phase, and fall back to the whole pool if the result is empty.
A `"Full Body"` theme skips narrowing entirely. -/
def narrowPool (pool : List Exercise) (theme : String) : List Exercise :=
  if theme = "Full Body" then pool
  else
    let themed := backfillPhases pool PHASE_ORDER
      (pool.filter (fun e => decide (theme ∈ e.themes)))
    if themed = [] then pool else themed

/-- The greedy admission walk over the (shuffled) candidate list of one phase:
admit an exercise when it keeps the accumulated phase time within
`budget + 1.0`, and keep scanning after a rejection. -/
def fillPhase (budget : ℚ) : List Exercise → ℚ → List Exercise
  | [], _ => []
  | ex :: rest, phase_time =>
    if phase_time + ex.duration_min ≤ budget + 1 then
      ex :: fillPhase budget rest (phase_time + ex.duration_min)
    else
      fillPhase budget rest phase_time

/-- Candidate selection for one phase: pool entries in the phase whose slug is
unused, with the energy soft-filter applied for foundation and peak only when
it leaves at least 2 candidates. -/
def phaseCandidates (pool : List Exercise) (energy_min energy_max : Int)
    (used_slugs : List String) (phase : String) : List Exercise :=
  let candidates := pool.filter (fun e => decide (e.phase = phase ∧ e.slug ∉ used_slugs))
  if phase = "foundation" ∨ phase = "peak" then
    let energy_filtered := candidates.filter
      (fun e => decide (energy_min ≤ e.energy ∧ e.energy ≤ energy_max))
    if 2 ≤ energy_filtered.length then energy_filtered else candidates
  else candidates

/-- The per-phase loop of `generate_workout`, threading the used-slug set. -/
def buildPhases (shuffle : List Exercise → List Exercise) (pool : List Exercise)
    (energy_min energy_max : Int) (duration_minutes : Int) :
    List String → List String → List Entry
  | [], _ => []
  | phase :: rest, used_slugs =>
    let budget : ℚ := (duration_minutes : ℚ) * PHASE_RATIOS phase
    let chosen :=
      fillPhase budget (shuffle (phaseCandidates pool energy_min energy_max used_slugs phase)) 0
    chosen.map (fun e => toEntry e (pyCapitalize phase)) ++
      buildPhases shuffle pool energy_min energy_max duration_minutes rest
        (used_slugs ++ chosen.map Exercise.slug)

/-- `generate_workout(duration_minutes, apparatus, theme, energy_label)`,
with `random.shuffle` abstracted into the `shuffle` argument. -/
def generate_workout (shuffle : List Exercise → List Exercise)
    (duration_minutes : Int) (apparatus theme energy_label : String) : List Entry :=
  let band := energyBand energy_label
  let pool := narrowPool (get_exercises_for_apparatus apparatus) theme
  buildPhases shuffle pool band.1 band.2 duration_minutes PHASE_ORDER []

/-- Python list indexing `l[index]`: non-negative indices from the front,
negative indices from the back, `none` (an `IndexError`) out of range. -/
def pyGetElem (l : List Entry) (index : Int) : Option Entry :=
  if 0 ≤ index ∧ index < l.length then l.get? index.toNat
  else if -(l.length : Int) ≤ index ∧ index < 0 then l.get? (index + l.length).toNat
  else none

/-- Primary swap tier: catalog entries with the slot's exact category and
(lower-cased) phase whose slug is not in the plan. -/
def primaryCandidates (current : Entry) (used_slugs : List String) : List Exercise :=
  EXERCISE_DB.filter (fun e =>
    decide (e.category = current.category ∧ e.phase = pyLower current.phase ∧
      e.slug ∉ used_slugs))

/-- Fallback swap tier: catalog entries with the slot's (lower-cased) phase and
apparatus, slug not in the plan, and energy within 1 of the slot's. -/
def fallbackCandidates (current : Entry) (used_slugs : List String) : List Exercise :=
  EXERCISE_DB.filter (fun e =>
    decide (e.phase = pyLower current.phase ∧ e.apparatus = current.apparatus ∧
      e.slug ∉ used_slugs ∧ |e.energy - current.energy| ≤ 1))

/-- `smart_swap(workout, index)`, with `random.choice` abstracted into the
`choice` argument. `Except.error` models the `IndexError` raised by
`workout[index]`; `Except.ok none` models the Python `None` result. -/
def smart_swap (choice : List Exercise → Exercise) (workout : List Entry)
    (index : Int) : Except String (Option Entry) :=
  match pyGetElem workout index with
  | none => Except.error "IndexError: list index out of range"
  | some current =>
    let used_slugs := workout.map Entry.slug
    let candidates := primaryCandidates current used_slugs
    let candidates :=
      if candidates = [] then fallbackCandidates current used_slugs else candidates
    if candidates = [] then Except.ok none
    else Except.ok (some (toEntry (choice candidates) current.phase_label))

/-- JSON values, the image of `json.dumps`/`json.loads` on workout plans. -/
inductive Json where
  | null
  | bool (b : Bool)
  | num (q : ℚ)
  | str (s : String)
  | arr (elems : List Json)
  | obj (fields : List (String × Json))

/-- Encoding of one plan entry as a JSON object, field for field. -/
def entryToJson (en : Entry) : Json :=
  Json.obj [("slug", Json.str en.slug), ("name", Json.str en.name),
    ("apparatus", Json.str en.apparatus), ("category", Json.str en.category),
    ("phase", Json.str en.phase), ("energy", Json.num (en.energy : ℚ)),
    ("default_springs", Json.str en.default_springs),
    ("duration_min", Json.num en.duration_min),
    ("cues", Json.arr (en.cues.map Json.str)),
    ("themes", Json.arr (en.themes.map Json.str)),
    ("image", Json.str en.image), ("phase_label", Json.str en.phase_label)]

/-- `workout_to_json`: serialize a workout (modelled at the JSON-value level;
Python's string layer is a faithful round trip on JSON values). -/
def workout_to_json (workout : List Entry) : Json :=
  Json.arr (workout.map entryToJson)

def jsonToStr : Json → Option String
  | Json.str s => some s
  | _ => none

/-- A JSON number decodes to a Python `int` exactly when it is integral. -/
def jsonToInt : Json → Option Int
  | Json.num q => if q.den = 1 then some q.num else none
  | _ => none

def jsonToRat : Json → Option ℚ
  | Json.num q => some q
  | _ => none

def strListFromJson : List Json → Option (List String)
  | [] => some []
  | j :: rest =>
    match jsonToStr j, strListFromJson rest with
    | some s, some l => some (s :: l)
    | _, _ => none

def jsonToStrList : Json → Option (List String)
  | Json.arr elems => strListFromJson elems
  | _ => none

/-- Decoding of one plan entry from a JSON object. -/
def jsonToEntry (j : Json) : Option Entry :=
  match j with
  | Json.obj fields => do
    let slug ← (fields.lookup "slug").bind jsonToStr
    let name ← (fields.lookup "name").bind jsonToStr
    let apparatus ← (fields.lookup "apparatus").bind jsonToStr
    let category ← (fields.lookup "category").bind jsonToStr
    let phase ← (fields.lookup "phase").bind jsonToStr
    let energy ← (fields.lookup "energy").bind jsonToInt
    let default_springs ← (fields.lookup "default_springs").bind jsonToStr
    let duration_min ← (fields.lookup "duration_min").bind jsonToRat
    let cues ← (fields.lookup "cues").bind jsonToStrList
    let themes ← (fields.lookup "themes").bind jsonToStrList
    let image ← (fields.lookup "image").bind jsonToStr
    let phase_label ← (fields.lookup "phase_label").bind jsonToStr
    pure { slug := slug, name := name, apparatus := apparatus, category := category,
           phase := phase, energy := energy, default_springs := default_springs,
           duration_min := duration_min, cues := cues, themes := themes,
           image := image, phase_label := phase_label }
  | _ => none

def entryListFromJson : List Json → Option (List Entry)
  | [] => some []
  | j :: rest =>
    match jsonToEntry j, entryListFromJson rest with
    | some en, some l => some (en :: l)
    | _, _ => none

/-- `json_to_workout`: deserialize a workout from its JSON form. -/
def json_to_workout (j : Json) : Option (List Entry) :=
  match j with
  | Json.arr elems => entryListFromJson elems
  | _ => none

/-- The balance report assembled by `analyze_workout_balance`; the Python
`Counter` dictionaries `phases` and `categories` are represented through the
counting functions (`phaseLabelCount`, `distinctCategories`) that the score
and notes are derived from. -/
structure BalanceResult where
  score : Int
  notes : List String
  body_regions : Nat × Nat × Nat
  themes_covered : List String
deriving DecidableEq

/-- `phases.get(label, 0)`: how many entries have this capitalized phase label. -/
def phaseLabelCount (workout : List Entry) (label : String) : Nat :=
  (workout.filter (fun ex => decide (pyCapitalize ex.phase_label = label))).length

/-- The union (with repetitions) of all entries' theme tags; only membership
in it is ever used, matching the Python `themes_hit` set. -/
def themesHit (workout : List Entry) : List String :=
  (workout.map Entry.themes).flatten

/-- Number of entries tagged with a given theme (body-region counts). -/
def countWithTheme (workout : List Entry) (t : String) : Nat :=
  (workout.filter (fun ex => decide (t ∈ ex.themes))).length

/-- Number of distinct category labels in the plan (`len(categories)`). -/
def distinctCategories (workout : List Entry) : Nat :=
  ((workout.map Entry.category).dedup).length

/-- The theme-underrepresentation deduction of `analyze_workout_balance`. -/
def theme_penalty (theme : String) (workout : List Entry) : Int :=
  if theme ≠ "Full Body" ∧ theme ∉ themesHit workout then 15 else 0

/-- `analyze_workout_balance(workout, theme)` from `app.py`. -/
def analyze_workout_balance (workout : List Entry) (theme : String) : BalanceResult :=
  if workout = [] then
    { score := 0, notes := [], body_regions := (0, 0, 0), themes_covered := [] }
  else
    let total : ℚ := (workout.length : ℚ)
    let warmup_pct : ℚ := (phaseLabelCount workout "Warmup" : ℚ) / total * 100
    let cooldown_pct : ℚ := (phaseLabelCount workout "Cooldown" : ℚ) / total * 100
    let upper := countWithTheme workout "Upper Body"
    let lower := countWithTheme workout "Lower Body"
    let core := countWithTheme workout "Core"
    let notes : List String :=
      (if warmup_pct < 10 then
        ["⚠️ Light on warmup — consider adding a prep exercise"] else []) ++
      (if cooldown_pct < 10 then
        ["⚠️ Light on cooldown — add a stretch or mobility move"] else []) ++
      (if theme ≠ "Full Body" ∧ theme ∉ themesHit workout then
        ["⚠️ Your theme \x27" ++ theme ++
          "\x27 isn\x27t well represented — try swapping in themed exercises"] else []) ++
      (if upper = 0 then
        ["💡 No upper body work — consider adding arms or pulling straps"] else []) ++
      (if lower = 0 then
        ["💡 No lower body work — consider adding footwork or hip exercises"] else []) ++
      (if core = 0 then
        ["💡 No core focus — the center of Pilates! Add abdominal work"] else []) ++
      (if distinctCategories workout < 3 then
        ["💡 Low variety — try exercises from different categories for a more complete session"]
       else [])
    let score : Int := 100
      - (if warmup_pct < 10 then 10 else 0)
      - (if cooldown_pct < 10 then 10 else 0)
      - theme_penalty theme workout
      - (if upper = 0 then 10 else 0)
      - (if lower = 0 then 10 else 0)
      - (if core = 0 then 15 else 0)
      - (if distinctCategories workout < 3 then 10 else 0)
    let notes := if notes = [] then
        ["✅ Well-balanced workout! Great mix of phases, body regions, and categories."]
      else notes
    { score := max 0 (min 100 score),
      notes := notes,
      body_regions := (upper, lower, core),
      themes_covered := (themesHit workout).dedup }

/-- The best-streak loop of `calculate_progress_stats`, walking the distinct
session dates most-recent-first (the Python loop runs over indices
`len-1, …, 1` of the ascending list); finishes with `max(best_streak, streak)`. -/
def bestStreakGo : List Int → Int → Int → Int
  | a :: b :: rest, best_streak, streak =>
    if a - b ≤ 3 then bestStreakGo (b :: rest) best_streak (streak + 1)
    else bestStreakGo (b :: rest) (max best_streak streak) 1
  | _, best_streak, streak => max best_streak streak

/-- `best_streak` over the ascending list of distinct session dates. -/
def best_streak (unique_dates : List Int) : Int :=
  bestStreakGo unique_dates.reverse 0 1

/-- The current-streak loop: extend while the gap is at most 3 days, stop at
the first larger gap. -/
def currentStreakGo : List Int → Int → Int
  | a :: b :: rest, current => if a - b ≤ 3 then currentStreakGo (b :: rest) (current + 1)
    else current
  | _, current => current

/-- `current_streak`: zero unless the most recent session date is within
3 days of today. -/
def current_streak (today : Int) (unique_dates : List Int) : Int :=
  match unique_dates.reverse with
  | [] => 0
  | last :: rest => if today - last ≤ 3 then currentStreakGo (last :: rest) 1 else 0

/-- Total `duration_min` of a list of exercises. -/
def sumDur (l : List Exercise) : ℚ :=
  (l.map Exercise.duration_min).sum

/-- Total `duration_min` of a list of plan entries. -/
def sumDurE (l : List Entry) : ℚ :=
  (l.map Entry.duration_min).sum

/-- A placeholder exercise used only as the default of `headChoice`. -/
def dummyEx : Exercise :=
  ⟨"", "", "", "", "", 0, "", 0, [], [], ""⟩

/-- A concrete instance of the `choice` argument (`random.choice`) that picks
the first candidate; used in witnesses. -/
def headChoice (l : List Exercise) : Exercise :=
  l.headD dummyEx

/-- The catalog entry with slug `mat_hundred`, used in witnesses. -/
def matHundred : Exercise :=
  (EXERCISE_DB.filter (fun e => e.slug == "mat_hundred")).headD dummyEx

/-- The catalog entry with slug `ref_short_spine`, used in witnesses. -/
def refShortSpine : Exercise :=
  (EXERCISE_DB.filter (fun e => e.slug == "ref_short_spine")).headD dummyEx

/-- A concrete one-slot plan holding `mat_hundred`, used in witnesses. -/
def curFoundation : Entry := toEntry matHundred "Foundation"

def wFoundation : List Entry := [curFoundation]

/-- A one-slot plan whose slot carries a phase label different from the
capitalized canonical phase of every exercise, used for C8. -/
def entryOddLabel : Entry := { curFoundation with phase_label := "W" }

def wOddLabel : List Entry := [entryOddLabel]

/-- C6: in the streak walk a gap of exactly 3 days extends the streak while a
gap of 4 closes it; session dates {day 1, day 3, day 7} give best streak 2; and
the current streak is 0 when the most recent date is more than 3 days ago. -/
theorem streak_gap_boundaries :
    (∀ (a b : Int) (rest : List Int) (best streak : Int), a - b = 3 →
      bestStreakGo (a :: b :: rest) best streak = bestStreakGo (b :: rest) best (streak + 1)) ∧
    (∀ (a b : Int) (rest : List Int) (best streak : Int), a - b = 4 →
      bestStreakGo (a :: b :: rest) best streak =
        bestStreakGo (b :: rest) (max best streak) 1) ∧
    best_streak [1, 3, 7] = 2 ∧
    (∀ (today : Int) (unique_dates : List Int) (last : Int),
      unique_dates.getLast? = some last → 3 < today - last →
      current_streak today unique_dates = 0) := by
  refine ⟨?_, ?_, by decide, ?_⟩
  · intro a b rest best streak h
    rw [bestStreakGo, if_pos (by omega)]
  · intro a b rest best streak h
    rw [bestStreakGo, if_neg (by omega)]
  · intro today ud last hlast htoday
    have hrev : ud.reverse.head? = some last := by rw [List.head?_reverse]; exact hlast
    unfold current_streak
    cases hr : ud.reverse with
    | nil => rfl
    | cons x t =>
      rw [hr] at hrev
      have hx : x = last := by simpa using hrev
      subst hx
      show (if today - x ≤ 3 then currentStreakGo (x :: t) 1 else 0) = 0
      rw [if_neg (by omega)]

theorem streak_gap_boundaries_witness :
    bestStreakGo [10, 7] 0 1 = bestStreakGo [7] 0 2 ∧
    bestStreakGo [11, 7] 0 1 = bestStreakGo [7] (max 0 1) 1 ∧
    current_streak 11 [1, 3, 7] = 0 :=
  ⟨streak_gap_boundaries.1 10 7 [] 0 1 (by decide),
   streak_gap_boundaries.2.1 11 7 [] 0 1 (by decide),
   streak_gap_boundaries.2.2.2 11 [1, 3, 7] 7 (by decide) (by decide)⟩

/-- C5: the balance score always lies in [0, 100], and the analyzer is a pure
function of the plan and the requested theme. -/
theorem balance_score_range_and_pure :
    ∀ (workout : List Entry) (theme : String),
      0 ≤ (analyze_workout_balance workout theme).score ∧
      (analyze_workout_balance workout theme).score ≤ 100 ∧
      ∀ (workout₂ : List Entry) (theme₂ : String), workout₂ = workout → theme₂ = theme →
        analyze_workout_balance workout₂ theme₂ = analyze_workout_balance workout theme := by
  intro workout theme
  refine ⟨?_, ?_, ?_⟩
  · unfold analyze_workout_balance
    split
    · simp
    · simp only []
      exact le_max_left 0 _
  · unfold analyze_workout_balance
    split
    · simp
    · simp only []
      exact max_le (by norm_num) (min_le_left 100 _)
  · intro w2 t2 hw ht
    rw [hw, ht]

theorem balance_score_range_and_pure_witness :
    0 ≤ (analyze_workout_balance wFoundation "Core").score ∧
    (analyze_workout_balance wFoundation "Core").score ≤ 100 ∧
    analyze_workout_balance wFoundation "Core" = analyze_workout_balance wFoundation "Core" :=
  ⟨(balance_score_range_and_pure wFoundation "Core").1,
   (balance_score_range_and_pure wFoundation "Core").2.1,
   (balance_score_range_and_pure wFoundation "Core").2.2 wFoundation "Core" rfl rfl⟩

/-- C10: the theme wildcard is the literal "Full Body", itself a catalog theme
tag; generation does no narrowing or backfill for it (so selection is not
restricted to Full Body exercises), and the analyzer never applies the
theme-underrepresentation penalty for it. -/
theorem full_body_wildcard :
    "Full Body" ∈ THEMES ∧
    (∃ e ∈ EXERCISE_DB, "Full Body" ∈ e.themes) ∧
    (∀ (pool : List Exercise), narrowPool pool "Full Body" = pool) ∧
    (∀ (shuffle : List Exercise → List Exercise) (D : Int) (apparatus energy_label : String),
      generate_workout shuffle D apparatus "Full Body" energy_label =
        buildPhases shuffle (get_exercises_for_apparatus apparatus)
          (energyBand energy_label).1 (energyBand energy_label).2 D PHASE_ORDER []) ∧
    (∃ e ∈ phaseCandidates (narrowPool EXERCISE_DB "Full Body") 1 2 [] "warmup",
      "Full Body" ∉ e.themes) ∧
    (∀ (workout : List Entry), theme_penalty "Full Body" workout = 0) := by
  refine ⟨by decide, by decide, ?_, ?_, by decide, ?_⟩
  · intro pool
    unfold narrowPool
    rw [if_pos rfl]
  · intro shuffle D apparatus energy_label
    rfl
  · intro workout
    unfold theme_penalty
    rw [if_neg]
    simp

/-- C3: smart_swap returns None exactly when both candidate tiers are empty;
otherwise the replacement is drawn from the primary tier when it is nonempty,
and from the fallback tier only when the primary is empty. -/
theorem smart_swap_two_tier :
    ∀ (choice : List Exercise → Exercise), (∀ l, l ≠ [] → choice l ∈ l) →
    ∀ (workout : List Entry) (index : Int) (current : Entry),
      pyGetElem workout index = some current →
      ((smart_swap choice workout index = Except.ok none ↔
        primaryCandidates current (workout.map Entry.slug) = [] ∧
        fallbackCandidates current (workout.map Entry.slug) = []) ∧
      (primaryCandidates current (workout.map Entry.slug) ≠ [] →
        ∃ r ∈ primaryCandidates current (workout.map Entry.slug),
          smart_swap choice workout index = Except.ok (some (toEntry r current.phase_label))) ∧
      (primaryCandidates current (workout.map Entry.slug) = [] →
        fallbackCandidates current (workout.map Entry.slug) ≠ [] →
        ∃ r ∈ fallbackCandidates current (workout.map Entry.slug),
          smart_swap choice workout index = Except.ok (some (toEntry r current.phase_label)))) := by
  intro choice hchoice workout index current hcur
  have hswap : smart_swap choice workout index =
      (let used_slugs := workout.map Entry.slug
       let candidates := primaryCandidates current used_slugs
       let candidates :=
         if candidates = [] then fallbackCandidates current used_slugs else candidates
       if candidates = [] then Except.ok none
       else Except.ok (some (toEntry (choice candidates) current.phase_label))) := by
    unfold smart_swap
    rw [hcur]
  by_cases hp : primaryCandidates current (workout.map Entry.slug) = []
  · by_cases hf : fallbackCandidates current (workout.map Entry.slug) = []
    · have hres : smart_swap choice workout index = Except.ok none := by
        rw [hswap]
        simp [hp, hf]
      exact ⟨⟨fun _ => ⟨hp, hf⟩, fun _ => hres⟩, fun hne => absurd hp hne,
        fun _ hne => absurd hf hne⟩
    · have hres : smart_swap choice workout index = Except.ok (some
          (toEntry (choice (fallbackCandidates current (workout.map Entry.slug)))
            current.phase_label)) := by
        rw [hswap]
        simp [hp, hf]
      refine ⟨⟨fun hok => ?_, fun h => absurd h.2 hf⟩, fun hne => absurd hp hne,
        fun _ _ => ⟨_, hchoice _ hf, hres⟩⟩
      rw [hres] at hok
      simp at hok
  · have hres : smart_swap choice workout index = Except.ok (some
        (toEntry (choice (primaryCandidates current (workout.map Entry.slug)))
          current.phase_label)) := by
      rw [hswap]
      simp [hp]
    refine ⟨⟨fun hok => ?_, fun h => absurd h.1 hp⟩, fun _ => ⟨_, hchoice _ hp, hres⟩,
      fun h _ => absurd h hp⟩
    rw [hres] at hok
    simp at hok

theorem headChoice_mem : ∀ (l : List Exercise), l ≠ [] → headChoice l ∈ l := by
  intro l h
  cases l with
  | nil => exact absurd rfl h
  | cons a t => exact List.mem_cons_self a t

/-- C8: a replacement returned by smart_swap carries the original slot's
phase_label, not the capitalized canonical phase of the replacement exercise —
even when the two differ, as the concrete instance shows. -/
theorem swap_preserves_phase_label :
    (∀ (choice : List Exercise → Exercise) (workout : List Entry) (index : Int)
      (entry : Entry),
      smart_swap choice workout index = Except.ok (some entry) →
      ∃ current, pyGetElem workout index = some current ∧
        entry.phase_label = current.phase_label) ∧
    (smart_swap headChoice wOddLabel 0 = Except.ok (some (toEntry refShortSpine "W")) ∧
      entryOddLabel.phase_label = "W" ∧
      pyCapitalize (toEntry refShortSpine "W").phase ≠ "W") := by
  constructor
  · intro choice workout index entry h
    cases hg : pyGetElem workout index with
    | none =>
      unfold smart_swap at h
      rw [hg] at h
      exact absurd h (by simp)
    | some current =>
      refine ⟨current, rfl, ?_⟩
      unfold smart_swap at h
      rw [hg] at h
      by_cases hp : primaryCandidates current (workout.map Entry.slug) = []
      · by_cases hf : fallbackCandidates current (workout.map Entry.slug) = []
        · simp [hp, hf] at h
        · simp [hp, hf] at h
          rw [← h]
          rfl
      · simp [hp] at h
        rw [← h]
        rfl
  · exact ⟨rfl, rfl, by decide⟩

theorem swap_preserves_phase_label_witness :
    ∃ current, pyGetElem wOddLabel 0 = some current ∧
      (toEntry refShortSpine "W").phase_label = current.phase_label :=
  swap_preserves_phase_label.1 headChoice wOddLabel 0 (toEntry refShortSpine "W") rfl

theorem pyGetElem_some_of_inbounds (workout : List Entry) (index : Int)
    (h : -(workout.length : Int) ≤ index ∧ index < workout.length) :
    ∃ current, pyGetElem workout index = some current := by
  unfold pyGetElem
  by_cases h0 : 0 ≤ index ∧ index < (workout.length : Int)
  · rw [if_pos h0]
    have hlt : index.toNat < workout.length := by omega
    exact ⟨workout.get ⟨index.toNat, hlt⟩, List.get?_eq_get hlt⟩
  · rw [if_neg h0, if_pos ⟨h.1, by omega⟩]
    have hlt : (index + workout.length).toNat < workout.length := by omega
    exact ⟨workout.get ⟨(index + workout.length).toNat, hlt⟩, List.get?_eq_get hlt⟩

theorem pyGetElem_none_of_outbounds {workout : List Entry} {index : Int}
    (h : index < -(workout.length : Int) ∨ (workout.length : Int) ≤ index) :
    pyGetElem workout index = none := by
  unfold pyGetElem
  rw [if_neg (by omega), if_neg (by omega)]

/-- C9 counterexample: `-1` lies outside `0 ≤ index < length` for the one-slot
plan `wFoundation`, yet `smart_swap` returns a normal replacement rather than
failing fast. -/
theorem smart_swap_negative_index_counterexample :
    ¬(0 ≤ (-1 : Int) ∧ (-1 : Int) < (wFoundation.length : Int)) ∧
    smart_swap headChoice wFoundation (-1) =
      Except.ok (some (toEntry refShortSpine "Foundation")) :=
  ⟨by decide, rfl⟩

/-- C9 (amended): `smart_swap` raises exactly when the index is out of Python
range (`index < -len` or `index ≥ len`); in particular the slot access is safe
for `0 ≤ index < len`. -/
theorem smart_swap_index_contract :
    ∀ (choice : List Exercise → Exercise) (workout : List Entry) (index : Int),
      ((∃ msg, smart_swap choice workout index = Except.error msg) ↔
        (index < -(workout.length : Int) ∨ (workout.length : Int) ≤ index)) ∧
      (0 ≤ index → index < (workout.length : Int) →
        ∃ current, pyGetElem workout index = some current) := by
  intro choice workout index
  constructor
  · constructor
    · intro ⟨msg, hmsg⟩
      by_contra hout
      obtain ⟨current, hcur⟩ := pyGetElem_some_of_inbounds workout index (by omega)
      unfold smart_swap at hmsg
      rw [hcur] at hmsg
      by_cases hp : primaryCandidates current (workout.map Entry.slug) = []
      · by_cases hf : fallbackCandidates current (workout.map Entry.slug) = []
        · simp [hp, hf] at hmsg
        · simp [hp, hf] at hmsg
      · simp [hp] at hmsg
    · intro hout
      refine ⟨"IndexError: list index out of range", ?_⟩
      unfold smart_swap
      rw [pyGetElem_none_of_outbounds hout]
  · intro h0 h1
    exact pyGetElem_some_of_inbounds workout index ⟨by omega, h1⟩

theorem smart_swap_index_contract_witness :
    ∃ current, pyGetElem wFoundation 0 = some current :=
  (smart_swap_index_contract headChoice wFoundation 0).2 (by decide) (by decide)

theorem smart_swap_two_tier_witness :
    (smart_swap headChoice wFoundation 0 = Except.ok none ↔
      primaryCandidates curFoundation (wFoundation.map Entry.slug) = [] ∧
      fallbackCandidates curFoundation (wFoundation.map Entry.slug) = []) ∧
    (primaryCandidates curFoundation (wFoundation.map Entry.slug) ≠ [] →
      ∃ r ∈ primaryCandidates curFoundation (wFoundation.map Entry.slug),
        smart_swap headChoice wFoundation 0 =
          Except.ok (some (toEntry r curFoundation.phase_label))) ∧
    (primaryCandidates curFoundation (wFoundation.map Entry.slug) = [] →
      fallbackCandidates curFoundation (wFoundation.map Entry.slug) ≠ [] →
      ∃ r ∈ fallbackCandidates curFoundation (wFoundation.map Entry.slug),
        smart_swap headChoice wFoundation 0 =
          Except.ok (some (toEntry r curFoundation.phase_label))) :=
  smart_swap_two_tier headChoice headChoice_mem wFoundation 0 curFoundation rfl

theorem strListFromJson_map_str : ∀ (l : List String),
    strListFromJson (l.map Json.str) = some l := by
  intro l
  induction l with
  | nil => rfl
  | cons s rest ih =>
    simp [strListFromJson, jsonToStr, ih]

theorem jsonToEntry_entryToJson : ∀ (en : Entry),
    jsonToEntry (entryToJson en) = some en := by
  intro en
  simp [jsonToEntry, entryToJson, List.lookup, jsonToStr, jsonToInt, jsonToRat,
    jsonToStrList, strListFromJson_map_str, Rat.den_intCast, Rat.num_intCast]

/-- C7: serialization round trip — for every plan,
json_to_workout (workout_to_json p) recovers p. -/
theorem serialization_round_trip :
    ∀ (workout : List Entry), json_to_workout (workout_to_json workout) = some workout := by
  intro workout
  induction workout with
  | nil => rfl
  | cons en rest ih =>
    have hrest : entryListFromJson (rest.map entryToJson) = some rest := by
      simpa [json_to_workout, workout_to_json] using ih
    simp [json_to_workout, workout_to_json, entryListFromJson,
      jsonToEntry_entryToJson, hrest]

theorem mem_backfillStep_of_mem {pool themed : List Exercise} {phase : String} {e : Exercise}
    (h : e ∈ themed) : e ∈ backfillStep pool themed phase := by
  unfold backfillStep
  split
  · exact List.mem_append_left _ h
  · exact h

theorem mem_backfillPhases_of_mem {pool : List Exercise} :
    ∀ (phases : List String) (themed : List Exercise) {e : Exercise},
      e ∈ themed → e ∈ backfillPhases pool phases themed := by
  intro phases
  induction phases with
  | nil => intro themed e h; exact h
  | cons p rest ih => intro themed e h; exact ih _ (mem_backfillStep_of_mem h)

theorem backfillStep_populates {pool : List Exercise} (themed : List Exercise)
    {phase : String}
    (hne : pool.filter (fun e => decide (e.phase = phase)) ≠ []) :
    (backfillStep pool themed phase).filter (fun e => decide (e.phase = phase)) ≠ [] := by
  by_cases hth : themed.filter (fun e => decide (e.phase = phase)) = []
  · obtain ⟨x, hx⟩ := List.exists_mem_of_ne_nil _ hne
    have hx' := List.mem_filter.mp hx
    have hxnot : x ∉ themed := fun hmem =>
      (List.ne_nil_of_mem (List.mem_filter.mpr ⟨hmem, hx'.2⟩)) hth
    have hxphase : x.phase = phase := by simpa using hx'.2
    have hext : x ∈ pool.filter (fun e => decide (e.phase = phase ∧ e ∉ themed)) :=
      List.mem_filter.mpr ⟨hx'.1, by simp [hxphase, hxnot]⟩
    unfold backfillStep
    rw [if_pos (by simp [hth])]
    cases hcase : pool.filter (fun e => decide (e.phase = phase ∧ e ∉ themed)) with
    | nil => rw [hcase] at hext; cases hext
    | cons a t =>
      have ha : a ∈ pool.filter (fun e => decide (e.phase = phase ∧ e ∉ themed)) := by
        rw [hcase]; exact List.mem_cons_self a t
      have haphase : a.phase = phase := by
        have := (List.mem_filter.mp ha).2
        simp at this
        exact this.1
      refine List.ne_nil_of_mem (List.mem_filter.mpr ⟨?_, by simpa using haphase⟩)
      exact List.mem_append_right _ (by simp)
  · obtain ⟨x, hx⟩ := List.exists_mem_of_ne_nil _ hth
    have hx' := List.mem_filter.mp hx
    exact List.ne_nil_of_mem
      (List.mem_filter.mpr ⟨mem_backfillStep_of_mem hx'.1, hx'.2⟩)

theorem backfillPhases_populates {pool : List Exercise} {p : String}
    (hne : pool.filter (fun e => decide (e.phase = p)) ≠ []) :
    ∀ (phases : List String) (themed : List Exercise), p ∈ phases →
      (backfillPhases pool phases themed).filter (fun e => decide (e.phase = p)) ≠ [] := by
  intro phases
  induction phases with
  | nil => intro themed h; exact absurd h (List.not_mem_nil p)
  | cons q rest ih =>
    intro themed hp
    show (backfillPhases pool rest (backfillStep pool themed q)).filter
      (fun e => decide (e.phase = p)) ≠ []
    rcases List.mem_cons.mp hp with heq | hmem
    · subst heq
      have hstep := backfillStep_populates themed hne
      obtain ⟨x, hx⟩ := List.exists_mem_of_ne_nil _ hstep
      have hx' := List.mem_filter.mp hx
      exact List.ne_nil_of_mem (List.mem_filter.mpr
        ⟨mem_backfillPhases_of_mem rest _ hx'.1, hx'.2⟩)
    · exact ih _ hmem

/-- C4: for a non-wildcard theme, a phase with fewer than 2 theme matches is
backfilled with up to 3 non-matching exercises of that phase; a phase populated
in the apparatus pool stays populated after narrowing; an empty backfill result
falls back to the full pool, so a narrow theme never empties the pool. -/
theorem theme_backfill_populates :
    ∀ (pool : List Exercise) (theme : String), theme ≠ "Full Body" →
      (∀ (themed : List Exercise) (phase : String),
        (themed.filter (fun e => decide (e.phase = phase))).length < 2 →
        backfillStep pool themed phase =
          themed ++ (pool.filter (fun e => decide (e.phase = phase ∧ e ∉ themed))).take 3) ∧
      (∀ p ∈ PHASE_ORDER, pool.filter (fun e => decide (e.phase = p)) ≠ [] →
        (narrowPool pool theme).filter (fun e => decide (e.phase = p)) ≠ []) ∧
      (backfillPhases pool PHASE_ORDER (pool.filter (fun e => decide (theme ∈ e.themes))) = [] →
        narrowPool pool theme = pool) ∧
      (narrowPool pool theme = [] → pool = []) := by
  intro pool theme htheme
  have hnar : narrowPool pool theme =
      (if backfillPhases pool PHASE_ORDER
          (pool.filter (fun e => decide (theme ∈ e.themes))) = []
       then pool
       else backfillPhases pool PHASE_ORDER
          (pool.filter (fun e => decide (theme ∈ e.themes)))) := by
    unfold narrowPool
    rw [if_neg htheme]
  refine ⟨?_, ?_, ?_, ?_⟩
  · intro themed phase hcount
    unfold backfillStep
    rw [if_pos hcount]
  · intro p hp hpool
    rw [hnar]
    by_cases hb : backfillPhases pool PHASE_ORDER
        (pool.filter (fun e => decide (theme ∈ e.themes))) = []
    · rw [if_pos hb]
      exact hpool
    · rw [if_neg hb]
      exact backfillPhases_populates hpool PHASE_ORDER _ hp
  · intro hb
    rw [hnar, if_pos hb]
  · intro hnil
    rw [hnar] at hnil
    by_cases hb : backfillPhases pool PHASE_ORDER
        (pool.filter (fun e => decide (theme ∈ e.themes))) = []
    · rw [if_pos hb] at hnil
      exact hnil
    · rw [if_neg hb] at hnil
      exact absurd hnil hb

theorem theme_backfill_populates_witness :
    (narrowPool (get_exercises_for_apparatus "Chair") "Strength").filter
      (fun e => decide (e.phase = "warmup")) ≠ [] ∧
    (narrowPool (get_exercises_for_apparatus "Chair") "Strength").filter
      (fun e => decide (e.phase = "cooldown")) ≠ [] ∧
    (narrowPool (get_exercises_for_apparatus "Chair") "Strength" = [] →
      get_exercises_for_apparatus "Chair" = []) :=
  ⟨(theme_backfill_populates (get_exercises_for_apparatus "Chair") "Strength"
      (by decide)).2.1 "warmup" (by decide) (by decide),
   (theme_backfill_populates (get_exercises_for_apparatus "Chair") "Strength"
      (by decide)).2.1 "cooldown" (by decide) (by decide),
   (theme_backfill_populates (get_exercises_for_apparatus "Chair") "Strength"
      (by decide)).2.2.2⟩

theorem buildPhases_cons (sh : List Exercise → List Exercise) (pool : List Exercise)
    (a b D : Int) (phase : String) (rest : List String) (used : List String) :
    buildPhases sh pool a b D (phase :: rest) used =
      (fillPhase ((D : ℚ) * PHASE_RATIOS phase)
        (sh (phaseCandidates pool a b used phase)) 0).map
          (fun e => toEntry e (pyCapitalize phase)) ++
      buildPhases sh pool a b D rest
        (used ++ (fillPhase ((D : ℚ) * PHASE_RATIOS phase)
          (sh (phaseCandidates pool a b used phase)) 0).map Exercise.slug) := rfl

theorem fillPhase_sublist (budget : ℚ) : ∀ (l : List Exercise) (t : ℚ),
    List.Sublist (fillPhase budget l t) l := by
  intro l
  induction l with
  | nil => intro t; simp [fillPhase]
  | cons ex rest ih =>
    intro t
    unfold fillPhase
    split
    · exact (ih _).cons₂ ex
    · exact (ih _).cons ex

theorem fillPhase_sum (budget : ℚ) : ∀ (l : List Exercise) (t : ℚ),
    t + sumDur (fillPhase budget l t) ≤ max (budget + 1) t := by
  intro l
  induction l with
  | nil =>
    intro t
    simp only [fillPhase, sumDur, List.map_nil, List.sum_nil, add_zero]
    exact le_max_right (budget + 1) t
  | cons ex rest ih =>
    intro t
    unfold fillPhase
    split
    · rename_i h
      calc t + sumDur (ex :: fillPhase budget rest (t + ex.duration_min))
          = (t + ex.duration_min) + sumDur (fillPhase budget rest (t + ex.duration_min)) := by
            simp [sumDur]
            ring
        _ ≤ max (budget + 1) (t + ex.duration_min) := ih _
        _ = budget + 1 := max_eq_left h
        _ ≤ max (budget + 1) t := le_max_left _ _
    · exact ih t

theorem fillPhase_sum_le {budget : ℚ} (h : 0 ≤ budget) (l : List Exercise) :
    sumDur (fillPhase budget l 0) ≤ budget + 1 := by
  have hx := fillPhase_sum budget l 0
  rw [zero_add, max_eq_left (by linarith)] at hx
  exact hx

theorem ratio_nonneg (q : String) : 0 ≤ PHASE_RATIOS q := by
  unfold PHASE_RATIOS
  repeat' split
  all_goals norm_num

theorem toEntry_duration (e : Exercise) (label : String) :
    (toEntry e label).duration_min = e.duration_min := rfl

theorem toEntry_label (e : Exercise) (label : String) :
    (toEntry e label).phase_label = label := rfl

theorem toEntry_slug (e : Exercise) (label : String) :
    (toEntry e label).slug = e.slug := rfl

theorem label_mem_buildPhases {sh : List Exercise → List Exercise} {pool : List Exercise}
    {a b D : Int} : ∀ (phases : List String) (used : List String) (en : Entry),
    en ∈ buildPhases sh pool a b D phases used →
    en.phase_label ∈ phases.map pyCapitalize := by
  intro phases
  induction phases with
  | nil => intro used en h; exact absurd h (List.not_mem_nil en)
  | cons phase rest ih =>
    intro used en h
    rw [buildPhases_cons] at h
    rcases List.mem_append.mp h with h1 | h2
    · obtain ⟨e, _, rfl⟩ := List.mem_map.mp h1
      rw [toEntry_label]
      exact List.mem_cons_self _ _
    · exact List.mem_cons_of_mem _ (ih _ en h2)

theorem sumDurE_append (l₁ l₂ : List Entry) :
    sumDurE (l₁ ++ l₂) = sumDurE l₁ + sumDurE l₂ := by
  simp [sumDurE]

theorem sumDurE_map_toEntry (l : List Exercise) (label : String) :
    sumDurE (l.map (fun e => toEntry e label)) = sumDur l := by
  simp [sumDurE, sumDur, List.map_map]
  rfl

theorem buildPhases_phase_sum {sh : List Exercise → List Exercise} {pool : List Exercise}
    {a b : Int} {D : Int} (hD : 0 ≤ D) :
    ∀ (phases : List String) (used : List String),
      (phases.map pyCapitalize).Nodup → ∀ p ∈ phases,
      sumDurE ((buildPhases sh pool a b D phases used).filter
        (fun en => decide (en.phase_label = pyCapitalize p))) ≤
        (D : ℚ) * PHASE_RATIOS p + 1 := by
  intro phases
  induction phases with
  | nil => intro used _ p hp; exact absurd hp (List.not_mem_nil p)
  | cons phase rest ih =>
    intro used hnd p hp
    rw [List.map_cons] at hnd
    have hnd' := List.nodup_cons.mp hnd
    rw [buildPhases_cons, List.filter_append]
    rcases List.mem_cons.mp hp with heq | hmem
    · subst heq
      have hA : ((fillPhase ((D : ℚ) * PHASE_RATIOS p)
          (sh (phaseCandidates pool a b used p)) 0).map
            (fun e => toEntry e (pyCapitalize p))).filter
          (fun en => decide (en.phase_label = pyCapitalize p)) =
          (fillPhase ((D : ℚ) * PHASE_RATIOS p)
            (sh (phaseCandidates pool a b used p)) 0).map
              (fun e => toEntry e (pyCapitalize p)) := by
        refine List.filter_eq_self.mpr ?_
        intro en hen
        obtain ⟨e, _, rfl⟩ := List.mem_map.mp hen
        simp [toEntry_label]
      have hB : (buildPhases sh pool a b D rest
            (used ++ (fillPhase ((D : ℚ) * PHASE_RATIOS p)
              (sh (phaseCandidates pool a b used p)) 0).map Exercise.slug)).filter
          (fun en => decide (en.phase_label = pyCapitalize p)) = [] := by
        refine List.filter_eq_nil_iff.mpr ?_
        intro en hen
        have hlab := label_mem_buildPhases rest _ en hen
        simp only [decide_eq_true_eq]
        intro heq
        rw [heq] at hlab
        exact hnd'.1 hlab
      rw [hA, hB, List.append_nil, sumDurE_map_toEntry]
      exact fillPhase_sum_le
        (mul_nonneg (by exact_mod_cast hD) (ratio_nonneg p)) _
    · have hcapne : pyCapitalize phase ≠ pyCapitalize p := by
        intro heq
        exact hnd'.1 (heq ▸ List.mem_map_of_mem pyCapitalize hmem)
      have hA : ((fillPhase ((D : ℚ) * PHASE_RATIOS phase)
          (sh (phaseCandidates pool a b used phase)) 0).map
            (fun e => toEntry e (pyCapitalize phase))).filter
          (fun en => decide (en.phase_label = pyCapitalize p)) = [] := by
        refine List.filter_eq_nil_iff.mpr ?_
        intro en hen
        obtain ⟨e, _, rfl⟩ := List.mem_map.mp hen
        simpa [toEntry_label] using hcapne
      rw [hA, List.nil_append]
      exact ih _ hnd'.2 p hmem

/-- C2: phase budgets are the fixed ratios 20/30/30/20 percent of the duration,
the admitted exercises of each phase never total more than 1.0 minute over that
budget, and the greedy fill keeps scanning the remaining candidates after a
rejection. -/
theorem phase_budget_bounds :
    (PHASE_RATIOS "warmup" = 1 / 5 ∧ PHASE_RATIOS "foundation" = 3 / 10 ∧
      PHASE_RATIOS "peak" = 3 / 10 ∧ PHASE_RATIOS "cooldown" = 1 / 5) ∧
    (∀ (shuffle : List Exercise → List Exercise) (D : Int)
      (apparatus theme energy_label : String), 0 ≤ D → ∀ p ∈ PHASE_ORDER,
      sumDurE ((generate_workout shuffle D apparatus theme energy_label).filter
        (fun en => decide (en.phase_label = pyCapitalize p))) ≤
        (D : ℚ) * PHASE_RATIOS p + 1) ∧
    (∀ (budget : ℚ) (ex : Exercise) (rest : List Exercise) (t : ℚ),
      ¬(t + ex.duration_min ≤ budget + 1) →
      fillPhase budget (ex :: rest) t = fillPhase budget rest t) := by
  refine ⟨⟨by norm_num [PHASE_RATIOS], ?_, ?_, ?_⟩, ?_, ?_⟩
  · rw [PHASE_RATIOS, if_neg (by decide), if_pos rfl]
    norm_num
  · rw [PHASE_RATIOS, if_neg (by decide), if_neg (by decide), if_pos rfl]
    norm_num
  · rw [PHASE_RATIOS, if_neg (by decide), if_neg (by decide), if_neg (by decide), if_pos rfl]
    norm_num
  · intro shuffle D apparatus theme energy_label hD p hp
    exact buildPhases_phase_sum hD PHASE_ORDER [] (by decide) p hp
  · intro budget ex rest t h
    rw [show fillPhase budget (ex :: rest) t =
        if t + ex.duration_min ≤ budget + 1 then
          ex :: fillPhase budget rest (t + ex.duration_min)
        else fillPhase budget rest t from rfl,
      if_neg h]

theorem phase_budget_bounds_witness :
    sumDurE ((generate_workout id 30 "Mat" "Core" "Gentle (1-2)").filter
      (fun en => decide (en.phase_label = pyCapitalize "warmup"))) ≤
      ((30 : Int) : ℚ) * PHASE_RATIOS "warmup" + 1 :=
  phase_budget_bounds.2.1 id 30 "Mat" "Core" "Gentle (1-2)" (by decide) "warmup" (by decide)

theorem db_slug_nodup : (EXERCISE_DB.map Exercise.slug).Nodup := by decide

theorem slugNodup_sub {l₁ l₂ : List Exercise} (h : List.Sublist l₁ l₂)
    (h₂ : (l₂.map Exercise.slug).Nodup) : (l₁.map Exercise.slug).Nodup :=
  List.Nodup.sublist (h.map Exercise.slug) h₂

theorem slug_inj_of_nodup {l : List Exercise} (h : (l.map Exercise.slug).Nodup) :
    ∀ x ∈ l, ∀ y ∈ l, x.slug = y.slug → x = y :=
  fun _ hx _ hy hxy => List.inj_on_of_nodup_map h hx hy hxy

theorem apparatus_slug_nodup (apparatus : String) :
    ((get_exercises_for_apparatus apparatus).map Exercise.slug).Nodup := by
  unfold get_exercises_for_apparatus
  split
  · exact db_slug_nodup
  · exact slugNodup_sub (List.filter_sublist _) db_slug_nodup

theorem backfillStep_inv {pool themed : List Exercise} (phase : String)
    (hpool : (pool.map Exercise.slug).Nodup)
    (h1 : (themed.map Exercise.slug).Nodup) (h2 : ∀ e ∈ themed, e ∈ pool) :
    ((backfillStep pool themed phase).map Exercise.slug).Nodup ∧
      ∀ e ∈ backfillStep pool themed phase, e ∈ pool := by
  unfold backfillStep
  split
  · have hext : List.Sublist
        ((pool.filter (fun e => decide (e.phase = phase ∧ e ∉ themed))).take 3) pool :=
      (List.take_sublist _ _).trans (List.filter_sublist _)
    constructor
    · rw [List.map_append, List.nodup_append]
      refine ⟨h1, slugNodup_sub hext hpool, ?_⟩
      intro s hs1 hs2
      obtain ⟨x, hx, rfl⟩ := List.mem_map.mp hs1
      obtain ⟨y, hy, hyx⟩ := List.mem_map.mp hs2
      have hy' : y ∈ pool.filter (fun e => decide (e.phase = phase ∧ e ∉ themed)) :=
        (List.take_sublist _ _).subset hy
      have hy'' := List.mem_filter.mp hy'
      have hynot : y ∉ themed := by
        have := hy''.2
        simp at this
        exact this.2
      have hxy : x = y := slug_inj_of_nodup hpool x (h2 x hx) y hy''.1 hyx.symm
      exact hynot (hxy ▸ hx)
    · intro e he
      rcases List.mem_append.mp he with h | h
      · exact h2 e h
      · exact hext.subset h
  · exact ⟨h1, h2⟩

theorem backfillPhases_inv {pool : List Exercise}
    (hpool : (pool.map Exercise.slug).Nodup) :
    ∀ (phases : List String) (themed : List Exercise),
      (themed.map Exercise.slug).Nodup → (∀ e ∈ themed, e ∈ pool) →
      ((backfillPhases pool phases themed).map Exercise.slug).Nodup ∧
        ∀ e ∈ backfillPhases pool phases themed, e ∈ pool := by
  intro phases
  induction phases with
  | nil => intro themed h1 h2; exact ⟨h1, h2⟩
  | cons p rest ih =>
    intro themed h1 h2
    have hstep := backfillStep_inv p hpool h1 h2
    exact ih _ hstep.1 hstep.2

theorem narrowPool_slug_nodup {pool : List Exercise} (theme : String)
    (hpool : (pool.map Exercise.slug).Nodup) :
    ((narrowPool pool theme).map Exercise.slug).Nodup := by
  unfold narrowPool
  split
  · exact hpool
  · show (List.map Exercise.slug
      (if backfillPhases pool PHASE_ORDER
          (pool.filter (fun e => decide (theme ∈ e.themes))) = []
       then pool
       else backfillPhases pool PHASE_ORDER
          (pool.filter (fun e => decide (theme ∈ e.themes))))).Nodup
    split
    · exact hpool
    · exact (backfillPhases_inv hpool PHASE_ORDER _
        (slugNodup_sub (List.filter_sublist _) hpool)
        (fun e he => (List.filter_sublist _).subset he)).1

theorem phaseCandidates_sublist (pool : List Exercise) (a b : Int)
    (used : List String) (phase : String) :
    List.Sublist (phaseCandidates pool a b used phase)
      (pool.filter (fun e => decide (e.phase = phase ∧ e.slug ∉ used))) := by
  unfold phaseCandidates
  split
  · show List.Sublist
      (if 2 ≤ ((pool.filter (fun e => decide (e.phase = phase ∧ e.slug ∉ used))).filter
          (fun e => decide (a ≤ e.energy ∧ e.energy ≤ b))).length
       then (pool.filter (fun e => decide (e.phase = phase ∧ e.slug ∉ used))).filter
          (fun e => decide (a ≤ e.energy ∧ e.energy ≤ b))
       else pool.filter (fun e => decide (e.phase = phase ∧ e.slug ∉ used)))
      (pool.filter (fun e => decide (e.phase = phase ∧ e.slug ∉ used)))
    split
    · exact List.filter_sublist _
    · exact List.Sublist.refl _
  · exact List.Sublist.refl _

theorem mem_phaseCandidates {pool : List Exercise} {a b : Int}
    {used : List String} {phase : String} {e : Exercise}
    (h : e ∈ phaseCandidates pool a b used phase) :
    e ∈ pool ∧ e.phase = phase ∧ e.slug ∉ used := by
  have h' := List.mem_filter.mp ((phaseCandidates_sublist pool a b used phase).subset h)
  refine ⟨h'.1, ?_⟩
  have := h'.2
  simpa using this

theorem map_toEntry_slug (l : List Exercise) (label : String) :
    (l.map (fun e => toEntry e label)).map Entry.slug = l.map Exercise.slug := by
  rw [List.map_map]
  rfl

theorem buildPhases_slug_nodup {sh : List Exercise → List Exercise}
    {pool : List Exercise} {a b D : Int} (hs : ∀ l, List.Perm (sh l) l)
    (hpool : (pool.map Exercise.slug).Nodup) :
    ∀ (phases : List String) (used : List String),
      ((buildPhases sh pool a b D phases used).map Entry.slug).Nodup ∧
      ∀ s ∈ (buildPhases sh pool a b D phases used).map Entry.slug, s ∉ used := by
  intro phases
  induction phases with
  | nil =>
    intro used
    constructor
    · exact List.nodup_nil
    · intro s hsm
      exact absurd hsm (List.not_mem_nil s)
  | cons phase rest ih =>
    intro used
    rw [buildPhases_cons]
    have hsubPC : List.Sublist
        (fillPhase ((D : ℚ) * PHASE_RATIOS phase)
          (sh (phaseCandidates pool a b used phase)) 0)
        (sh (phaseCandidates pool a b used phase)) :=
      fillPhase_sublist _ _ _
    have hperm := hs (phaseCandidates pool a b used phase)
    have hmemc : ∀ e ∈ fillPhase ((D : ℚ) * PHASE_RATIOS phase)
        (sh (phaseCandidates pool a b used phase)) 0,
        e ∈ phaseCandidates pool a b used phase :=
      fun e he => hperm.mem_iff.mp (hsubPC.subset he)
    have hcand : ((phaseCandidates pool a b used phase).map Exercise.slug).Nodup :=
      slugNodup_sub ((phaseCandidates_sublist pool a b used phase).trans
        (List.filter_sublist _)) hpool
    have hshuf : ((sh (phaseCandidates pool a b used phase)).map Exercise.slug).Nodup :=
      ((hperm.map Exercise.slug).nodup_iff).mpr hcand
    have hchnodup : ((fillPhase ((D : ℚ) * PHASE_RATIOS phase)
        (sh (phaseCandidates pool a b used phase)) 0).map Exercise.slug).Nodup :=
      slugNodup_sub hsubPC hshuf
    have hnotused : ∀ s ∈ (fillPhase ((D : ℚ) * PHASE_RATIOS phase)
        (sh (phaseCandidates pool a b used phase)) 0).map Exercise.slug, s ∉ used := by
      intro s hsm
      obtain ⟨e, he, rfl⟩ := List.mem_map.mp hsm
      exact (mem_phaseCandidates (hmemc e he)).2.2
    obtain ⟨ihn, ihu⟩ := ih (used ++ (fillPhase ((D : ℚ) * PHASE_RATIOS phase)
        (sh (phaseCandidates pool a b used phase)) 0).map Exercise.slug)
    constructor
    · rw [List.map_append, List.nodup_append, map_toEntry_slug]
      refine ⟨hchnodup, ihn, ?_⟩
      intro s hs1 hs2
      exact ihu s hs2 (List.mem_append_right used hs1)
    · intro s hsm
      rcases List.mem_append.mp (by rw [List.map_append, map_toEntry_slug] at hsm; exact hsm)
        with h1 | h2
      · exact hnotused s h1
      · intro hused
        exact ihu s h2 (List.mem_append_left _ hused)

theorem nodup_set_of_not_mem {α : Type} :
    ∀ {l : List α} {a : α}, l.Nodup → a ∉ l → ∀ (n : Nat), (l.set n a).Nodup := by
  intro l
  induction l with
  | nil => intro a _ _ n; cases n <;> simp
  | cons b t ih =>
    intro a hnd hna n
    obtain ⟨hbt, hts⟩ := List.nodup_cons.mp hnd
    cases n with
    | zero =>
      rw [List.set_cons_zero]
      exact List.nodup_cons.mpr ⟨fun h => hna (List.mem_cons_of_mem _ h), hts⟩
    | succ n =>
      rw [List.set_cons_succ]
      refine List.nodup_cons.mpr
        ⟨?_, ih hts (fun h => hna (List.mem_cons_of_mem _ h)) n⟩
      intro hmem
      rcases List.mem_or_eq_of_mem_set hmem with h1 | h2
      · exact hbt h1
      · refine hna ?_
        rw [← h2]
        exact List.mem_cons_self b t

theorem map_set {α β : Type} (f : α → β) :
    ∀ (l : List α) (n : Nat) (a : α), (l.set n a).map f = (l.map f).set n (f a) := by
  intro l
  induction l with
  | nil => intro n a; cases n <;> rfl
  | cons b t ih =>
    intro n a
    cases n with
    | zero => rfl
    | succ n => simp [ih n a]

/-- C1: for every generation request the plan has no two entries with the same
slug, and smart_swap never returns a replacement whose slug is already in the
plan, so applying the swap (setting the slot) preserves the invariant. -/
theorem no_duplicate_ids :
    (∀ (shuffle : List Exercise → List Exercise), (∀ l, List.Perm (shuffle l) l) →
      ∀ (duration_minutes : Int) (apparatus theme energy_label : String),
      ((generate_workout shuffle duration_minutes apparatus theme energy_label).map
        Entry.slug).Nodup) ∧
    (∀ (choice : List Exercise → Exercise), (∀ l, l ≠ [] → choice l ∈ l) →
      ∀ (workout : List Entry) (index : Int) (entry : Entry),
      smart_swap choice workout index = Except.ok (some entry) →
      entry.slug ∉ workout.map Entry.slug ∧
      ∀ (n : Nat), (workout.map Entry.slug).Nodup →
        ((workout.set n entry).map Entry.slug).Nodup) := by
  constructor
  · intro shuffle hs D apparatus theme energy_label
    exact (buildPhases_slug_nodup hs
      (narrowPool_slug_nodup theme (apparatus_slug_nodup apparatus))
      PHASE_ORDER []).1
  · intro choice hchoice workout index entry h
    have hnotin : entry.slug ∉ workout.map Entry.slug := by
      cases hg : pyGetElem workout index with
      | none =>
        unfold smart_swap at h
        rw [hg] at h
        exact absurd h (by simp)
      | some current =>
        unfold smart_swap at h
        rw [hg] at h
        by_cases hp : primaryCandidates current (workout.map Entry.slug) = []
        · by_cases hf : fallbackCandidates current (workout.map Entry.slug) = []
          · simp [hp, hf] at h
          · simp [hp, hf] at h
            have hmem := hchoice _ hf
            have := List.mem_filter.mp hmem
            have hprops := this.2
            simp only [decide_eq_true_eq] at hprops
            rw [← h, toEntry_slug]
            exact hprops.2.2.1
        · simp [hp] at h
          have hmem := hchoice _ hp
          have := List.mem_filter.mp hmem
          have hprops := this.2
          simp only [decide_eq_true_eq] at hprops
          rw [← h, toEntry_slug]
          exact hprops.2.2
    refine ⟨hnotin, ?_⟩
    intro n hnd
    rw [map_set]
    exact nodup_set_of_not_mem hnd hnotin n

theorem no_duplicate_ids_witness :
    ((generate_workout id 30 "Mat" "Core" "Gentle (1-2)").map Entry.slug).Nodup ∧
    (toEntry refShortSpine "Foundation").slug ∉ wFoundation.map Entry.slug :=
  ⟨no_duplicate_ids.1 id (fun l => List.Perm.refl l) 30 "Mat" "Core" "Gentle (1-2)",
   (no_duplicate_ids.2 headChoice headChoice_mem wFoundation 0
      (toEntry refShortSpine "Foundation") rfl).1⟩
